import Mathlib

/-!
Shallow embedding of the SmartSpend expense-tracker core (src/types.ts):
the data model, the state-mutation handlers, the permission checks, and the
derived ledger views, together with theorems checking the specification's
claims about them. Line numbers in comments refer to src/types.ts.
-/

/-- Expense category enumeration (lines 2-11). The display strings attached
to the TypeScript enum members play no role in the verified properties. -/
inductive Category
  | housing | transportation | food | utilities
  | entertainment | shopping | health | other
  deriving DecidableEq, Repr

/-- System-wide role, `'Admin' | 'Member'` (line 19). -/
inductive Role
  | admin | member
  deriving DecidableEq, BEq, Repr

/-- User record (lines 13-21); `password` and `themeColor` are optional. -/
structure User where
  id : String
  name : String
  email : String
  password : Option String
  avatar : String
  role : Role
  themeColor : Option String
  deriving DecidableEq, Repr

/-- Workspace record (lines 23-29); the numeric `budget` is modelled as ℚ. -/
structure Workspace where
  id : String
  name : String
  currency : String
  budget : ℚ
  users : List User
  deriving DecidableEq, Repr

/-- Expense record (lines 31-41); the numeric `amount` is modelled as ℚ. -/
structure Expense where
  id : String
  amount : ℚ
  description : String
  category : Category
  date : String
  userId : String
  userName : String
  userAvatar : String
  workspaceId : String
  deriving DecidableEq, Repr

/-- Active view (line 43). -/
inductive View
  | dashboard | transactions | workspace | settings
  deriving DecidableEq, Repr

/-- The aggregate application state (lines 45-53). -/
structure AppState where
  workspaces : List Workspace
  users : List User
  currentWorkspaceId : String
  expenses : List Expense
  activeUserId : Option String
  activeView : View
  masterPassword : Option String
  deriving DecidableEq, Repr

/-- Default theme colour (line 61). -/
def DEFAULT_THEME : String := "#2563eb"

/-- The seeded admin record (lines 75). -/
def uSeed : User :=
  { id := "u1", name := "System Admin", email := "admin@smartspend.com",
    password := some "admin", avatar := "https://picsum.photos/seed/admin/120",
    role := .admin, themeColor := some "#2563eb" }

/-- Pre-seeded user directory (lines 74-76). -/
def DEFAULT_USERS : List User := [uSeed]

/-- Pre-seeded workspace (lines 78-84); its roster `[DEFAULT_USERS[0]]` is the
whole (singleton) default directory. -/
def DEFAULT_WORKSPACE : Workspace :=
  { id := "w1", name := "Main Workspace", currency := "$", budget := 5000,
    users := DEFAULT_USERS }

/-- The bootstrap state used when no saved snapshot exists (lines 90-98). -/
def initState : AppState :=
  { workspaces := [DEFAULT_WORKSPACE], users := DEFAULT_USERS,
    currentWorkspaceId := "w1", expenses := [], activeUserId := none,
    activeView := .dashboard, masterPassword := some "admin" }

/-- Derived value `currentWorkspace` (lines 127-129): the workspace whose id
is `currentWorkspaceId`, falling back to the first workspace; `none` when the
workspace list is empty (where the source expression is `undefined`). -/
def currentWorkspace? (s : AppState) : Option Workspace :=
  (s.workspaces.find? (fun w => w.id == s.currentWorkspaceId)).orElse
    (fun _ => s.workspaces.head?)

/-- Derived value `activeUser` (lines 131-133): `u.id === state.activeUserId`
never holds when `activeUserId` is `null`. -/
def activeUser? (s : AppState) : Option User :=
  match s.activeUserId with
  | none => none
  | some uid => s.users.find? (fun u => u.id == uid)

/-- Derived flag `isAdmin` (line 135). -/
def isAdmin (s : AppState) : Bool :=
  match activeUser? s with
  | some u => u.role == Role.admin
  | none => false

/-- Permission helper `canModifyTransaction` (lines 203-207): any member of
the current workspace may manage its transactions; the `expense` argument is
not inspected by the body. When the workspace list is empty the source would
dereference `undefined`; that corner is modelled as `false`. -/
def canModifyTransaction (s : AppState) (expense : Expense) : Bool :=
  match activeUser? s with
  | none => false
  | some au =>
    match currentWorkspace? s with
    | none => false
    | some cw => cw.users.any (fun u => u.id == au.id)

/-- Value of a non-empty all-digit character list, `none` otherwise. -/
def decDigits? (cs : List Char) : Option Nat :=
  if cs ≠ [] ∧ cs.all Char.isDigit then
    some (cs.foldl (fun n c => 10 * n + (c.toNat - 48)) 0)
  else none

/-- Models JavaScript `parseFloat` on the fragment this development evaluates
it on: an optional leading minus sign, decimal digits, and an optional
fractional part. Strings outside this fragment (where `parseFloat` may strip
whitespace, consume a numeric prefix, parse an exponent, or produce `NaN`)
are mapped to `none`; call sites use `Option.getD 0`, and no proved property
depends on the value at such strings. -/
def parseFloat? (s : String) : Option ℚ :=
  let signed : Bool → ℚ → ℚ := fun neg q => if neg then -q else q
  let core : Bool → List Char → Option ℚ := fun neg body =>
    match body.span (fun c => c != '.') with
    | (intPart, []) => (decDigits? intPart).map (fun n => signed neg (n : ℚ))
    | (intPart, _ :: fracPart) =>
      if fracPart.contains '.' then none
      else
        match decDigits? intPart, decDigits? fracPart with
        | some n, some f =>
          some (signed neg ((n : ℚ) + (f : ℚ) / ((10 : ℚ) ^ fracPart.length)))
        | _, _ => none
  match s.toList with
  | '-' :: rest => core true rest
  | cs => core false cs

/-- Models JavaScript `toLowerCase`, character by character; agrees with the
source on the ASCII email strings every property here evaluates it on. -/
def lowercase (s : String) : String := String.mk (s.toList.map Char.toLower)

/-- Typed outcomes, one per exit path of the mutation handlers. `notAdmin` is
the silent early return behind an admin-only gate, `notConfirmed` a declined
browser confirmation dialog, `validationRejected` the silent early return of
`handleAddExpense`, and `passwordMismatch` the sign-up confirmation check. -/
inductive Outcome
  | ok | duplicateEmail | passwordMismatch | invalidCredentials
  | permissionDenied | notAdmin | selfDeletionForbidden | notConfirmed
  | lastMemberProtection | userNotFound | workspaceNotFound
  | validationRejected | noActiveUser
  deriving DecidableEq, Repr

/-- Sign-up handler (lines 210-245). `freshId` stands for the generated
`u-${Date.now()}` identifier; the duplicate-email check (line 219) is
case-insensitive via `lowercase`. -/
def handleSignUp (name email password confirmPassword freshId : String)
    (s : AppState) : Outcome × AppState :=
  if s.users.any (fun u => lowercase u.email == lowercase email) then
    (.duplicateEmail, s)
  else if password ≠ confirmPassword then
    (.passwordMismatch, s)
  else
    let newUser : User :=
      { id := freshId, name := name, email := email, password := some password,
        avatar := "https://picsum.photos/seed/" ++ email ++ "/120",
        role := .member, themeColor := some DEFAULT_THEME }
    (.ok,
      { s with
        users := s.users ++ [newUser],
        activeUserId := some freshId,
        -- line 243 maps over the workspaces replacing index 0, i.e. the head
        workspaces :=
          match s.workspaces with
          | [] => []
          | w :: rest => { w with users := w.users ++ [newUser] } :: rest })

/-- Sign-in handler (lines 247-262); `userId` is the profile chosen in the
login step, and the secret comparison is plain equality (line 256). -/
def handleSignIn (userId password : String) (s : AppState) : Outcome × AppState :=
  match s.users.find? (fun u => u.id == userId) with
  | some u =>
    if u.password == some password then (.ok, { s with activeUserId := some u.id })
    else (.invalidCredentials, s)
  | none => (.invalidCredentials, s)

/-- Logout handler (lines 264-268); only the `AppState` effect is modelled. -/
def handleLogout (s : AppState) : AppState := { s with activeUserId := none }

/-- Self-profile edit handler (lines 284-306): rewrites the user record, the
denormalized owner fields of that user's expenses, and every workspace roster
entry for that user, in one transition. -/
def handleSaveSelfProfile (name email avatar : String) (s : AppState) :
    Outcome × AppState :=
  match activeUser? s with
  | none => (.noActiveUser, s)
  | some au =>
    let updated : User := { au with name := name, email := email, avatar := avatar }
    (.ok,
      { s with
        users := s.users.map (fun u => if u.id == au.id then updated else u),
        expenses := s.expenses.map (fun e =>
          if e.userId == au.id then
            { e with userName := updated.name, userAvatar := updated.avatar }
          else e),
        workspaces := s.workspaces.map (fun ws =>
          { ws with
            users := ws.users.map (fun u => if u.id == au.id then updated else u) }) })

/-- Admin user-deletion handler (lines 308-324). The admin gate (line 309) is
checked before the self-deletion safety lock (line 310); `confirmed` models
the browser confirmation dialog (line 314). -/
def handleDeleteUser (userId : String) (confirmed : Bool) (s : AppState) :
    Outcome × AppState :=
  if !isAdmin s then (.notAdmin, s)
  else if some userId == s.activeUserId then (.selfDeletionForbidden, s)
  else if !confirmed then (.notConfirmed, s)
  else
    (.ok,
      { s with
        users := s.users.filter (fun u => u.id != userId),
        workspaces := s.workspaces.map (fun ws =>
          { ws with users := ws.users.filter (fun u => u.id != userId) }) })

/-- Workspace membership toggle (lines 326-350): admin gate, target lookup,
current-workspace lookup, then removal or addition; a removal that would
empty the roster is blocked (lines 340-343). -/
def toggleWorkspaceMember (userId : String) (s : AppState) : Outcome × AppState :=
  if !isAdmin s then (.notAdmin, s)
  else
    match s.users.find? (fun u => u.id == userId) with
    | none => (.userNotFound, s)
    | some user =>
      match s.workspaces.find? (fun w => w.id == s.currentWorkspaceId) with
      | none => (.workspaceNotFound, s)
      | some ws =>
        let isMember := ws.users.any (fun u => u.id == userId)
        let updatedUsers :=
          if isMember then ws.users.filter (fun u => u.id != userId)
          else ws.users ++ [user]
        if updatedUsers = [] then (.lastMemberProtection, s)
        else
          (.ok,
            { s with
              workspaces := s.workspaces.map (fun w =>
                if w.id == s.currentWorkspaceId then { w with users := updatedUsers }
                else w) })

/-- Expense creation handler (lines 352-374). The only guard (line 353)
checks the two form strings for emptiness and that a user is active — the
amount's numeric value is never validated. `freshId` and `date` stand for the
generated `Date.now().toString()` and ISO date. When the workspace list is
empty the source would dereference `undefined` (`currentWorkspace.id`); that
corner is modelled as a rejection. -/
def handleAddExpense (description amount : String) (category : Category)
    (freshId date : String) (s : AppState) : Outcome × AppState :=
  if description = "" ∨ amount = "" ∨ activeUser? s = none then
    (.validationRejected, s)
  else
    match activeUser? s, currentWorkspace? s with
    | some au, some cw =>
      let expense : Expense :=
        { id := freshId, amount := (parseFloat? amount).getD 0,
          description := description, category := category, date := date,
          userId := au.id, userName := au.name, userAvatar := au.avatar,
          workspaceId := cw.id }
      (.ok, { s with expenses := expense :: s.expenses })
    | _, _ => (.workspaceNotFound, s)

/-- Single-expense deletion (lines 404-417): requires `canModifyTransaction`,
then removes by id. The `selectedExpenseIds` bookkeeping (line 415) is
component-local state outside `AppState`. -/
def deleteExpense (expense : Expense) (confirmed : Bool) (s : AppState) :
    Outcome × AppState :=
  if !canModifyTransaction s expense then (.permissionDenied, s)
  else if !confirmed then (.notConfirmed, s)
  else (.ok, { s with expenses := s.expenses.filter (fun e => e.id != expense.id) })

/-- Bulk expense deletion (lines 419-427): after the confirmation dialog,
every expense whose id is among `selectedIds` is removed. The source performs
no authorization check on this path. -/
def deleteSelectedExpenses (selectedIds : List String) (confirmed : Bool)
    (s : AppState) : Outcome × AppState :=
  if !confirmed then (.notConfirmed, s)
  else
    (.ok,
      { s with expenses := s.expenses.filter (fun e => !selectedIds.contains e.id) })

/-- Currency update from the Governance Config inputs (line 905). The whole
section is rendered only for admins (line 895), modelled as the admin gate. -/
def setCurrency (raw : String) (s : AppState) : AppState :=
  if !isAdmin s then s
  else
    match currentWorkspace? s with
    | none => s
    | some cw =>
      { s with
        workspaces := s.workspaces.map (fun w =>
          if w.id == cw.id then { w with currency := raw } else w) }

/-- Budget update from the Governance Config inputs (line 914): sets the
current workspace's budget to `parseFloat` of the raw input with no
validation. The whole section is rendered only for admins (line 895),
modelled as the admin gate. -/
def setBudget (raw : String) (s : AppState) : AppState :=
  if !isAdmin s then s
  else
    match currentWorkspace? s with
    | none => s
    | some cw =>
      { s with
        workspaces := s.workspaces.map (fun w =>
          if w.id == cw.id then { w with budget := (parseFloat? raw).getD 0 }
          else w) }

/-- Theme update (lines 194-200). -/
def handleUpdateTheme (color : String) (s : AppState) : AppState :=
  match s.activeUserId with
  | none => s
  | some uid =>
    { s with
      users := s.users.map (fun u =>
        if u.id == uid then { u with themeColor := some color } else u) }

/-- Expenses of the current workspace (lines 137-139). -/
def workspaceExpenses (s : AppState) : List Expense :=
  match currentWorkspace? s with
  | none => []
  | some cw => s.expenses.filter (fun e => e.workspaceId == cw.id)

/-- Total spending of the current workspace (lines 161-163). -/
def totalSpent (s : AppState) : ℚ :=
  (workspaceExpenses s).foldl (fun acc e => acc + e.amount) 0

/-- Derived `spendingPercentage` (line 166). In ℚ a division by zero yields
0, whereas the source's floating-point division by a zero budget yields
Infinity or NaN; the claims about it only concern whether the divisor can be
zero. -/
def spendingPercentage (s : AppState) : ℚ :=
  match currentWorkspace? s with
  | none => 0
  | some cw => totalSpent s / cw.budget * 100

/-- Sort direction (line 114). -/
inductive SortDir
  | asc | desc
  deriving DecidableEq, Repr

/-- The comparator of lines 149-156 specialised to sort key `'amount'` (the
undefined-field guard at line 152 never fires: `amount` is a required
field). -/
def amountCmp (dir : SortDir) (a b : Expense) : Int :=
  if a.amount < b.amount then (match dir with | .asc => -1 | .desc => 1)
  else if b.amount < a.amount then (match dir with | .asc => 1 | .desc => -1)
  else 0

/-- The ordering induced by the comparator: `a` may be placed no later than
`b`. `Array.prototype.sort` is required to be stable (ES2019), so
`result.sort(cmp)` at line 149 is modelled as a stable insertion sort with
respect to this relation. -/
def amountLe (dir : SortDir) (a b : Expense) : Prop := amountCmp dir a b ≤ 0

instance (dir : SortDir) : DecidableRel (amountLe dir) := fun a b =>
  inferInstanceAs (Decidable (amountCmp dir a b ≤ 0))

instance (dir : SortDir) : IsTotal Expense (amountLe dir) where
  total a b := by
    rcases dir <;> simp only [amountLe, amountCmp] <;> split_ifs <;>
      first | decide | (exfalso; linarith)

instance (dir : SortDir) : IsTrans Expense (amountLe dir) where
  trans a b c hab hbc := by
    rcases dir <;> simp only [amountLe, amountCmp] at hab hbc ⊢ <;>
      split_ifs at hab hbc ⊢ <;>
      first
        | decide
        | exact absurd hab (by decide)
        | exact absurd hbc (by decide)
        | (exfalso; linarith)

/-- `sortBy(expenses, 'amount', dir)`: the sorting stage of
`filteredExpenses` (lines 149-156) under sort key `'amount'`. -/
def sortByAmount (dir : SortDir) (es : List Expense) : List Expense :=
  es.insertionSort (amountLe dir)

/-- User-issued intents: one constructor per state-mutating entry point of
the component. Identifiers and dates generated inside the source
(`Date.now()`) appear as parameters of the intent. -/
inductive Op
  | signUp (name email password confirmPassword freshId : String)
  | signIn (userId password : String)
  | logout
  | saveSelfProfile (name email avatar : String)
  | deleteUser (userId : String) (confirmed : Bool)
  | toggleMember (userId : String)
  | addExpense (description amount : String) (category : Category)
      (freshId date : String)
  | removeExpense (expense : Expense) (confirmed : Bool)
  | removeSelected (selectedIds : List String) (confirmed : Bool)
  | setCurrencyOp (raw : String)
  | setBudgetOp (raw : String)
  | updateTheme (color : String)
  | setView (v : View)

/-- The state transition performed by one intent (outcome discarded). -/
def applyOp (op : Op) (s : AppState) : AppState :=
  match op with
  | .signUp n e p cp fid => (handleSignUp n e p cp fid s).2
  | .signIn uid pw => (handleSignIn uid pw s).2
  | .logout => handleLogout s
  | .saveSelfProfile n e a => (handleSaveSelfProfile n e a s).2
  | .deleteUser uid c => (handleDeleteUser uid c s).2
  | .toggleMember uid => (toggleWorkspaceMember uid s).2
  | .addExpense d a cat fid dt => (handleAddExpense d a cat fid dt s).2
  | .removeExpense e c => (deleteExpense e c s).2
  | .removeSelected ids c => (deleteSelectedExpenses ids c s).2
  | .setCurrencyOp raw => setCurrency raw s
  | .setBudgetOp raw => setBudget raw s
  | .updateTheme c => handleUpdateTheme c s
  | .setView v => { s with activeView := v }

/-- Apply a list of intents in order. -/
def applyOps (ops : List Op) (s : AppState) : AppState :=
  ops.foldl (fun st op => applyOp op st) s

/-- States reachable from the bootstrap state through the handlers. -/
def Reachable (s : AppState) : Prop :=
  ∃ ops : List Op, applyOps ops initState = s

/-- Claim C2's stated invariant: in every reachable state every workspace has
a non-empty member roster. -/
def memberSetsNonempty : Prop :=
  ∀ s, Reachable s → ∀ w ∈ s.workspaces, w.users ≠ []

/-- Claim C6's stated invariant: in every reachable state every workspace's
budget is strictly positive. -/
def budgetsPositive : Prop :=
  ∀ s, Reachable s → ∀ w ∈ s.workspaces, 0 < w.budget

/-- An Admin-role directory entry used by concrete test states. -/
def uAda : User :=
  { id := "u1", name := "Ada", email := "ada@example.com",
    password := some "pw1", avatar := "a1", role := .admin, themeColor := none }

/-- A Member-role directory entry used by concrete test states. -/
def uBrook : User :=
  { id := "u2", name := "Brook", email := "brook@example.com",
    password := some "pw2", avatar := "a2", role := .member, themeColor := none }

/-- Workspace `w1` with the given roster and a budget of 100. -/
def wsMain (roster : List User) : Workspace :=
  { id := "w1", name := "Main", currency := "$", budget := 100, users := roster }

/-- A single-workspace state over `w1` with the given directory, roster,
expenses and active user. -/
def mkState (users roster : List User) (expenses : List Expense)
    (active : Option String) : AppState :=
  { workspaces := [wsMain roster], users := users,
    currentWorkspaceId := "w1", expenses := expenses,
    activeUserId := active, activeView := .dashboard,
    masterPassword := none }

/-- An expense with the given id, owner and amount; other fields fixed. -/
def mkExp (i uid : String) (q : ℚ) : Expense :=
  { id := i, amount := q, description := "d", category := .other,
    date := "2026-01-01", userId := uid, userName := "n",
    userAvatar := "a", workspaceId := "w1" }

/-- C1 input: an expense of the current workspace owned by `u2`. -/
def c1exp : Expense := mkExp "e1" "u2" 10

/-- C1 input: the active user `u1` is not on the roster of the current
workspace, which holds one expense not modifiable by `u1`. -/
def c1state : AppState := mkState [uAda, uBrook] [uBrook] [c1exp] (some "u1")

/-- C2 trace emptying workspace `w1`: a second user registers (joining
`w1`), the admin signs back in (the Login As flow, line 885), removes
themselves from `w1`, then deletes the only remaining member. -/
def c2trace : List Op :=
  [ .signUp "Brook" "brook@example.com" "pw" "pw" "u2",
    .signIn "u1" "admin",
    .toggleMember "u1",
    .deleteUser "u2" true ]

/-- The workspace left without members by `c2trace`. -/
def c2BadWorkspace : Workspace :=
  { id := "w1", name := "Main Workspace", currency := "$", budget := 5000,
    users := [] }

/-- C2 witness input: admin `u1` active, roster `[u1, u2]`. -/
def c2state : AppState := mkState [uAda, uBrook] [uAda, uBrook] [] (some "u1")

/-- C3 input: the active user is a plain Member targeting themselves. -/
def c3state : AppState := mkState [uBrook] [uBrook] [] (some "u2")

/-- C3 witness input: admin `u1` active; `u2` is on the roster and owns one
historical expense. -/
def c3adminState : AppState :=
  mkState [uAda, uBrook] [uAda, uBrook] [mkExp "e1" "u2" 10] (some "u1")

/-- C4 witness input: active user `u1`; one expense of `u1`, one of `u2`. -/
def c4state : AppState :=
  mkState [uAda, uBrook] [uAda, uBrook] [mkExp "e1" "u1" 5, mkExp "e2" "u2" 7]
    (some "u1")

/-- C5 input: the bootstrap state with the seeded admin signed in. -/
def c5state : AppState := { initState with activeUserId := some "u1" }

/-- C6 trace reaching a zero budget: the admin signs in and enters 0 in the
budget field. -/
def c6trace : List Op := [ .signIn "u1" "admin", .setBudgetOp "0" ]

/-- The zero-budget workspace reached by `c6trace`. -/
def c6BadWorkspace : Workspace :=
  { id := "w1", name := "Main Workspace", currency := "$", budget := 0,
    users := DEFAULT_USERS }

/-- C7 witness input: three expenses with pairwise-distinct amounts. -/
def c7list : List Expense :=
  [mkExp "a" "u1" 3, mkExp "b" "u1" 1, mkExp "c" "u1" 2]

/-- C7 witness input: four expenses with tied amounts. -/
def c7ties : List Expense :=
  [mkExp "p" "u1" 2, mkExp "q" "u1" 1, mkExp "r" "u1" 1, mkExp "s" "u1" 2]

/-- C10 witness input: an expense recorded under workspace `w2`. -/
def c10exp : Expense :=
  { id := "e9", amount := 4, description := "d", category := .other,
    date := "2026-01-01", userId := "u2", userName := "n",
    userAvatar := "a", workspaceId := "w2" }

/-- C10 witness input: `u1` is active and on the current workspace roster;
the ledger holds only the foreign-workspace expense. -/
def c10state : AppState := mkState [uAda] [uAda] [c10exp] (some "u1")

/-! Helper lemmas about the comparator order. -/

theorem amountLe_asc (a b : Expense) : amountLe .asc a b ↔ a.amount ≤ b.amount := by
  simp only [amountLe, amountCmp]
  split_ifs with h1 h2
  · simp [h1.le]
  · simp [not_le.mpr h2]
  · simp [le_of_not_lt h2]

theorem amountLe_desc (a b : Expense) : amountLe .desc a b ↔ b.amount ≤ a.amount := by
  simp only [amountLe, amountCmp]
  split_ifs with h1 h2
  · simp [not_le.mpr h1]
  · simp [h2.le]
  · simp [le_of_not_lt h1]

theorem amountLe_of_eq (dir : SortDir) {a b : Expense} (h : a.amount = b.amount) :
    amountLe dir a b := by
  rcases dir
  · exact (amountLe_asc a b).mpr h.le
  · exact (amountLe_desc a b).mpr h.ge

theorem amount_eq_of_amountLe (dir : SortDir) {a b : Expense}
    (h₁ : amountLe dir a b) (h₂ : amountLe dir b a) : a.amount = b.amount := by
  rcases dir
  · exact le_antisymm ((amountLe_asc a b).mp h₁) ((amountLe_asc b a).mp h₂)
  · exact le_antisymm ((amountLe_desc b a).mp h₂) ((amountLe_desc a b).mp h₁)

/-! Stability of the insertion model of `Array.prototype.sort`. -/

theorem filter_orderedInsert_of_neg (r : Expense → Expense → Prop) [DecidableRel r]
    (p : Expense → Bool) (x : Expense) (hx : p x = false) :
    ∀ s : List Expense, (s.orderedInsert r x).filter p = s.filter p := by
  intro s
  induction s with
  | nil => simp [List.orderedInsert, hx]
  | cons y ys ih =>
    by_cases hr : r x y
    · simp [List.orderedInsert, hr, hx]
    · simp only [List.orderedInsert, if_neg hr, List.filter_cons]
      cases hp : p y <;> simp [hp, ih]

theorem filter_orderedInsert_of_pos (dir : SortDir) (p : Expense → Bool) (x : Expense)
    (hx : p x = true) (hkey : ∀ y, ¬ amountLe dir x y → p y = false) :
    ∀ s : List Expense,
      (s.orderedInsert (amountLe dir) x).filter p = x :: s.filter p := by
  intro s
  induction s with
  | nil => simp [List.orderedInsert, hx]
  | cons y ys ih =>
    by_cases hr : amountLe dir x y
    · simp [List.orderedInsert, hr, hx]
    · have hy := hkey y hr
      simp [List.orderedInsert, if_neg hr, List.filter_cons, hy, ih]

theorem sortByAmount_stable (dir : SortDir) (v : ℚ) :
    ∀ l : List Expense,
      (sortByAmount dir l).filter (fun e => decide (e.amount = v)) =
        l.filter (fun e => decide (e.amount = v)) := by
  intro l
  induction l with
  | nil => rfl
  | cons x xs ih =>
    simp only [sortByAmount, List.insertionSort] at ih ⊢
    by_cases hx : x.amount = v
    · rw [filter_orderedInsert_of_pos dir _ x (by simp [hx])
        (fun y hy => by
          have hne : x.amount ≠ y.amount := fun he => hy (amountLe_of_eq dir he)
          simp only [decide_eq_false_iff_not]
          exact fun hyv => hne (by rw [hx, hyv])), ih]
      simp [List.filter_cons, hx]
    · rw [filter_orderedInsert_of_neg _ _ x (by simp [hx]), ih]
      simp [List.filter_cons, hx]

/-! A sorted permutation of a list with pairwise-distinct amounts is unique. -/

theorem eq_of_perm_of_sorted_of_nodup (dir : SortDir) :
    ∀ l₁ l₂ : List Expense, l₁.Perm l₂ →
      l₁.Pairwise (amountLe dir) → l₂.Pairwise (amountLe dir) →
      (l₁.map Expense.amount).Nodup → l₁ = l₂ := by
  intro l₁
  induction l₁ with
  | nil => intro l₂ hp _ _ _; exact (hp.symm.eq_nil).symm
  | cons x t₁ ih =>
    intro l₂ hp hs₁ hs₂ hnd
    cases l₂ with
    | nil => exact absurd hp.eq_nil (by simp)
    | cons y t₂ =>
      simp only [List.map_cons, List.nodup_cons] at hnd
      have hxy : x = y := by
        by_contra hne
        have hxl₂ : x ∈ y :: t₂ := hp.mem_iff.mp (List.mem_cons_self x t₁)
        have hx₂ : x ∈ t₂ := (List.mem_cons.mp hxl₂).resolve_left hne
        have hyl₁ : y ∈ x :: t₁ := hp.symm.mem_iff.mp (List.mem_cons_self y t₂)
        have hy₁ : y ∈ t₁ :=
          (List.mem_cons.mp hyl₁).resolve_left (fun he => hne he.symm)
        have h₁ : amountLe dir x y := (List.pairwise_cons.mp hs₁).1 y hy₁
        have h₂ : amountLe dir y x := (List.pairwise_cons.mp hs₂).1 x hx₂
        have heq : x.amount = y.amount := amount_eq_of_amountLe dir h₁ h₂
        exact hnd.1 (heq ▸ List.mem_map_of_mem Expense.amount hy₁)
      subst hxy
      rw [ih t₂ hp.cons_inv hs₁.of_cons hs₂.of_cons hnd.2]

/-- C7: on a list with pairwise-distinct amounts, sorting by amount
descending yields exactly the reverse of sorting ascending, and sorting by
amount in either direction is stable: the expenses whose amount equals any
given value keep their original relative order. -/
theorem sortByAmount_reverse_and_stable (l ties : List Expense) (dir : SortDir) (v : ℚ)
    (hd : (l.map Expense.amount).Nodup) :
    sortByAmount .desc l = (sortByAmount .asc l).reverse
    ∧ (sortByAmount dir ties).filter (fun e => decide (e.amount = v)) =
        ties.filter (fun e => decide (e.amount = v)) := by
  refine ⟨?_, sortByAmount_stable dir v ties⟩
  have hpermA : (sortByAmount .asc l).Perm l := List.perm_insertionSort _ l
  have hpermD : (sortByAmount .desc l).Perm l := List.perm_insertionSort _ l
  have hsA : (sortByAmount .asc l).Pairwise (amountLe .asc) :=
    List.sorted_insertionSort _ l
  have hsD : (sortByAmount .desc l).Pairwise (amountLe .desc) :=
    List.sorted_insertionSort _ l
  have hsRev : (sortByAmount .asc l).reverse.Pairwise (amountLe .desc) := by
    rw [List.pairwise_reverse]
    exact hsA.imp (fun h => (amountLe_desc _ _).mpr ((amountLe_asc _ _).mp h))
  have hperm : (sortByAmount .desc l).Perm ((sortByAmount .asc l).reverse) :=
    hpermD.trans (hpermA.symm.trans (List.reverse_perm _).symm)
  exact eq_of_perm_of_sorted_of_nodup .desc _ _ hperm hsD hsRev
    ((hpermD.map Expense.amount).nodup_iff.mpr hd)

/-- Witness for C7 at a concrete distinct-amount list and a concrete list
with tied amounts. -/
theorem sortByAmount_reverse_and_stable_witness :
    (c7list.map Expense.amount).Nodup
    ∧ (sortByAmount .desc c7list = (sortByAmount .asc c7list).reverse
      ∧ (sortByAmount .asc c7ties).filter (fun e => decide (e.amount = 1)) =
          c7ties.filter (fun e => decide (e.amount = 1))) :=
  ⟨by decide, sortByAmount_reverse_and_stable c7list c7ties .asc 1 (by decide)⟩

/-- C1: the bulk delete path of the source performs no authorization
re-check. In `c1state` the acting user may not modify the single targeted
expense (`canModifyTransaction` is false), yet the confirmed bulk deletion
reports success and removes it instead of rejecting the batch and leaving
the ledger unchanged. -/
theorem bulkDelete_skips_authorization :
    canModifyTransaction c1state c1exp = false
    ∧ c1state.expenses = [c1exp]
    ∧ (deleteSelectedExpenses ["e1"] true c1state).1 = Outcome.ok
    ∧ (deleteSelectedExpenses ["e1"] true c1state).2.expenses = [] := by decide

/-- C2 counterexample: the claimed reachable-state invariant is false — after
`c2trace` the sole workspace of the reached state has an empty member roster
(`handleDeleteUser` empties it; the toggle path alone is protected). -/
theorem memberSetsNonempty_fails : ¬ memberSetsNonempty := by
  intro h
  exact h (applyOps c2trace initState) ⟨c2trace, rfl⟩ c2BadWorkspace (by decide) rfl

/-- C2 (amended): `toggleWorkspaceMember` itself never empties a roster — an
admin's removal of the last member is rejected with `lastMemberProtection`
and the whole state unchanged, removal of a non-last member succeeds, and
toggling a non-member adds them whenever the target user exists — but the
global non-empty-roster invariant fails on reachable states because
`handleDeleteUser` can empty a roster. -/
theorem toggleWorkspaceMember_spec (s : AppState) (uid : String) (user : User)
    (ws : Workspace) (hAdmin : isAdmin s = true)
    (hUser : s.users.find? (fun u => u.id == uid) = some user)
    (hWs : s.workspaces.find? (fun w => w.id == s.currentWorkspaceId) = some ws) :
    (ws.users.any (fun u => u.id == uid) = true →
      ws.users.filter (fun u => u.id != uid) = [] →
        toggleWorkspaceMember uid s = (.lastMemberProtection, s))
    ∧ (ws.users.any (fun u => u.id == uid) = true →
        ws.users.filter (fun u => u.id != uid) ≠ [] →
          (toggleWorkspaceMember uid s).1 = .ok
          ∧ ∀ w ∈ (toggleWorkspaceMember uid s).2.workspaces,
              w.id = s.currentWorkspaceId →
                w.users = ws.users.filter (fun u => u.id != uid))
    ∧ (ws.users.any (fun u => u.id == uid) = false →
        (toggleWorkspaceMember uid s).1 = .ok
        ∧ ∀ w ∈ (toggleWorkspaceMember uid s).2.workspaces,
            w.id = s.currentWorkspaceId → w.users = ws.users ++ [user]) := by
  refine ⟨?_, ?_, ?_⟩
  · intro hm hfe
    simp [toggleWorkspaceMember, hAdmin, hUser, hWs, hm, hfe]
  · intro hm hne
    simp only [toggleWorkspaceMember, hAdmin, Bool.not_true, Bool.false_eq_true,
      if_false, hUser, hWs, hm, if_true, if_neg hne]
    refine ⟨trivial, ?_⟩
    intro w hw hid
    simp only [List.mem_map] at hw
    obtain ⟨w₀, _, rfl⟩ := hw
    by_cases hc : w₀.id == s.currentWorkspaceId
    · simp [hc]
    · rw [if_neg (by simp [hc])] at hid ⊢
      exact absurd hid (by simpa using hc)
  · intro hm
    have happ : (ws.users ++ [user]) ≠ [] := by simp
    simp only [toggleWorkspaceMember, hAdmin, Bool.not_true, Bool.false_eq_true,
      if_false, hUser, hWs, hm, if_neg happ]
    refine ⟨trivial, ?_⟩
    intro w hw hid
    simp only [List.mem_map] at hw
    obtain ⟨w₀, _, rfl⟩ := hw
    by_cases hc : w₀.id == s.currentWorkspaceId
    · simp [hc]
    · rw [if_neg (by simp [hc])] at hid ⊢
      exact absurd hid (by simpa using hc)

/-- Witness for the amended C2: in a concrete two-member workspace the admin
removes the non-last member `u2` and the roster becomes `[u1]`. -/
theorem toggleWorkspaceMember_spec_witness :
    (toggleWorkspaceMember "u2" c2state).1 = Outcome.ok
    ∧ ∀ w ∈ (toggleWorkspaceMember "u2" c2state).2.workspaces,
        w.id = c2state.currentWorkspaceId →
          w.users = (wsMain [uAda, uBrook]).users.filter (fun u => u.id != "u2") :=
  (toggleWorkspaceMember_spec c2state "u2" uBrook (wsMain [uAda, uBrook])
    (by decide) (by decide) (by decide)).2.1 (by decide) (by decide)

/-- C3 counterexample: a Member's self-deletion attempt is rejected by the
admin gate with the silent `notAdmin` outcome, not with
`SelfDeletionForbidden`, refuting "regardless of the requestor's role". -/
theorem deleteUser_member_self_not_selfDeletionForbidden :
    (handleDeleteUser "u2" true c3state).1 = Outcome.notAdmin
    ∧ Outcome.notAdmin ≠ Outcome.selfDeletionForbidden
    ∧ (handleDeleteUser "u2" true c3state).2 = c3state := by decide

/-- C3 (amended): self-deletion always leaves the state unchanged, and the
`SelfDeletionForbidden` outcome is produced exactly when the requestor passes
the admin gate (a non-admin is silently rejected by the gate first); an admin
deleting a distinct, confirmed target removes them from the directory and
from every workspace roster while leaving the expense ledger untouched. -/
theorem handleDeleteUser_spec (s : AppState) (uid : String) (c : Bool) :
    (s.activeUserId = some uid →
      (handleDeleteUser uid c s).2 = s
      ∧ ((handleDeleteUser uid c s).1 = .selfDeletionForbidden ↔ isAdmin s = true))
    ∧ (isAdmin s = true → s.activeUserId ≠ some uid →
        (handleDeleteUser uid true s).1 = .ok
        ∧ (∀ u ∈ (handleDeleteUser uid true s).2.users, u.id ≠ uid)
        ∧ (∀ w ∈ (handleDeleteUser uid true s).2.workspaces,
            ∀ u ∈ w.users, u.id ≠ uid)
        ∧ (handleDeleteUser uid true s).2.expenses = s.expenses) := by
  constructor
  · intro hself
    cases hAdm : isAdmin s
    · simp [handleDeleteUser, hAdm]
    · simp [handleDeleteUser, hAdm, hself]
  · intro hAdm hne
    have hbeq : (some uid == s.activeUserId) = false :=
      beq_eq_false_iff_ne.mpr (fun h => hne h.symm)
    simp only [handleDeleteUser, hAdm, Bool.not_true, Bool.false_eq_true,
      if_false, hbeq, Bool.not_false, if_true]
    refine ⟨trivial, ?_, ?_, trivial⟩
    · intro u hu
      simp only [List.mem_filter, bne_iff_ne, ne_eq] at hu
      exact hu.2
    · intro w hw u hu
      simp only [List.mem_map] at hw
      obtain ⟨w₀, _, rfl⟩ := hw
      simp only [List.mem_filter, bne_iff_ne, ne_eq] at hu
      exact hu.2

/-- Witness for the amended C3: the concrete admin `u1` deletes the distinct
member `u2`; `u2` vanishes from the directory and the roster while `u2`'s
historical expense survives. -/
theorem handleDeleteUser_spec_witness :
    (handleDeleteUser "u2" true c3adminState).1 = Outcome.ok
    ∧ (∀ u ∈ (handleDeleteUser "u2" true c3adminState).2.users, u.id ≠ "u2")
    ∧ (∀ w ∈ (handleDeleteUser "u2" true c3adminState).2.workspaces,
        ∀ u ∈ w.users, u.id ≠ "u2")
    ∧ (handleDeleteUser "u2" true c3adminState).2.expenses =
        c3adminState.expenses :=
  (handleDeleteUser_spec c3adminState "u2" true).2 (by decide) (by decide)

/-- C4: after the active user's profile edit completes, every expense owned
by that user carries the new name and avatar, every workspace roster entry
for that user is the updated record, and the ledger is otherwise untouched:
same length, and every position holding an expense owned by anyone else is
unchanged. -/
theorem handleSaveSelfProfile_cascade (s : AppState) (n em av : String) (au : User)
    (h : activeUser? s = some au) :
    (handleSaveSelfProfile n em av s).1 = .ok
    ∧ (∀ e ∈ (handleSaveSelfProfile n em av s).2.expenses,
        e.userId = au.id → e.userName = n ∧ e.userAvatar = av)
    ∧ (∀ w ∈ (handleSaveSelfProfile n em av s).2.workspaces, ∀ u ∈ w.users,
        u.id = au.id → u = { au with name := n, email := em, avatar := av })
    ∧ (handleSaveSelfProfile n em av s).2.expenses.length = s.expenses.length
    ∧ (∀ i : Nat, ∀ hi : i < s.expenses.length,
        (s.expenses[i]).userId ≠ au.id →
          (handleSaveSelfProfile n em av s).2.expenses[i]? = some (s.expenses[i])) := by
  simp only [handleSaveSelfProfile, h]
  refine ⟨trivial, ?_, ?_, by simp, ?_⟩
  · intro e he hid
    simp only [List.mem_map] at he
    obtain ⟨e₀, _, rfl⟩ := he
    by_cases hc : e₀.userId == au.id
    · simp [hc]
    · rw [if_neg (by simp [hc])] at hid ⊢
      exact absurd hid (by simpa using hc)
  · intro w hw u hu hid
    simp only [List.mem_map] at hw
    obtain ⟨w₀, _, rfl⟩ := hw
    simp only [List.mem_map] at hu
    obtain ⟨u₀, _, rfl⟩ := hu
    by_cases hc : u₀.id == au.id
    · simp [hc]
    · rw [if_neg (by simp [hc])] at hid ⊢
      exact absurd hid (by simpa using hc)
  · intro i hi hne
    have hbeq : ((s.expenses[i]).userId == au.id) = false :=
      beq_eq_false_iff_ne.mpr hne
    simp only [List.getElem?_map, List.getElem?_eq_getElem hi, Option.map_some']
    rw [if_neg (by simp [hbeq])]

/-- Witness for C4: the concrete active user `u1` renames themselves; their
expense is rewritten and `u2`'s expense at position 1 is untouched. -/
theorem handleSaveSelfProfile_cascade_witness :
    (handleSaveSelfProfile "Ada L." "ada@new.example" "a9" c4state).1 = Outcome.ok
    ∧ (∀ e ∈ (handleSaveSelfProfile "Ada L." "ada@new.example" "a9" c4state).2.expenses,
        e.userId = uAda.id → e.userName = "Ada L." ∧ e.userAvatar = "a9")
    ∧ (∀ w ∈ (handleSaveSelfProfile "Ada L." "ada@new.example" "a9" c4state).2.workspaces,
        ∀ u ∈ w.users, u.id = uAda.id →
          u = { uAda with name := "Ada L.", email := "ada@new.example", avatar := "a9" })
    ∧ (handleSaveSelfProfile "Ada L." "ada@new.example" "a9" c4state).2.expenses.length =
        c4state.expenses.length
    ∧ (∀ i : Nat, ∀ hi : i < c4state.expenses.length,
        (c4state.expenses[i]).userId ≠ uAda.id →
          (handleSaveSelfProfile "Ada L." "ada@new.example" "a9" c4state).2.expenses[i]? =
            some (c4state.expenses[i])) :=
  handleSaveSelfProfile_cascade c4state "Ada L." "ada@new.example" "a9" uAda (by decide)

/-- C5 counterexample: `handleAddExpense` performs no positivity check — the
non-empty amount string "-5" is accepted, the handler reports success and
prepends an expense of negative amount instead of rejecting the input and
leaving the ledger unchanged. -/
theorem addExpense_accepts_nonpositive :
    (handleAddExpense "Pizza" "-5" .other "e9" "2026-10-12" c5state).1 = Outcome.ok
    ∧ ((handleAddExpense "Pizza" "-5" .other "e9" "2026-10-12" c5state).2.expenses.map
        Expense.amount) = [-5]
    ∧ ¬ (0 : ℚ) < -5
    ∧ (handleAddExpense "Pizza" "-5" .other "e9" "2026-10-12" c5state).2.expenses
        ≠ c5state.expenses := by decide

/-- C5 (amended): expense creation is rejected as a silent no-op when the
description string or the amount string is empty; the amount's numeric value
is never validated, so non-positive parsed amounts are accepted; on success
the new expense is prepended to the ledger with the owner fields denormalized
from the active user at creation time. -/
theorem handleAddExpense_spec (d a : String) (cat : Category) (fid dt : String)
    (s : AppState) (au : User) (cw : Workspace)
    (hau : activeUser? s = some au) (hcw : currentWorkspace? s = some cw) :
    (d = "" ∨ a = "" → handleAddExpense d a cat fid dt s = (.validationRejected, s))
    ∧ (d ≠ "" → a ≠ "" →
        (handleAddExpense d a cat fid dt s).1 = .ok
        ∧ (handleAddExpense d a cat fid dt s).2.expenses =
            { id := fid, amount := (parseFloat? a).getD 0, description := d,
              category := cat, date := dt, userId := au.id, userName := au.name,
              userAvatar := au.avatar, workspaceId := cw.id } :: s.expenses) := by
  constructor
  · intro hda
    have hcond : d = "" ∨ a = "" ∨ activeUser? s = none := by tauto
    simp [handleAddExpense, hcond]
  · intro hd ha
    simp [handleAddExpense, hau, hcw, hd, ha]

/-- Witness for the amended C5: in the signed-in bootstrap state the
non-empty strings "Tea" and "-5" are accepted and the resulting expense is
prepended, denormalized from the seeded admin. -/
theorem handleAddExpense_spec_witness :
    (handleAddExpense "Tea" "-5" .other "e9" "2026-10-12" c5state).1 = Outcome.ok
    ∧ (handleAddExpense "Tea" "-5" .other "e9" "2026-10-12" c5state).2.expenses =
        { id := "e9", amount := (parseFloat? "-5").getD 0, description := "Tea",
          category := .other, date := "2026-10-12", userId := uSeed.id,
          userName := uSeed.name, userAvatar := uSeed.avatar,
          workspaceId := DEFAULT_WORKSPACE.id } :: c5state.expenses :=
  (handleAddExpense_spec "Tea" "-5" .other "e9" "2026-10-12" c5state uSeed
    DEFAULT_WORKSPACE (by decide) (by decide)).2 (by decide) (by decide)

/-- C6 counterexample: the positivity invariant is false — `c6trace` reaches
a state whose workspace budget is 0 (the governance budget input stores any
parsed value), so the `spendingPercentage` divisor can be zero. -/
theorem budgetsPositive_fails : ¬ budgetsPositive := by
  intro h
  have h0 := h (applyOps c6trace initState) ⟨c6trace, rfl⟩ c6BadWorkspace (by decide)
  exact absurd h0 (by decide)

/-- C6 (amended): the budget update is admin-gated (a non-admin request
leaves the state unchanged), but the parsed value is stored with no
positivity validation — every workspace carrying the current workspace's id
receives exactly the parsed value — and a zero budget is reachable. -/
theorem setBudget_spec (s : AppState) (raw : String) (cw : Workspace)
    (hcw : currentWorkspace? s = some cw) :
    (isAdmin s = false → setBudget raw s = s)
    ∧ (isAdmin s = true →
        ∀ w ∈ (setBudget raw s).workspaces, w.id = cw.id →
          w.budget = (parseFloat? raw).getD 0)
    ∧ ((applyOps c6trace initState).workspaces.map Workspace.budget) = [0] := by
  refine ⟨?_, ?_, by decide⟩
  · intro hA
    simp [setBudget, hA]
  · intro hA
    simp only [setBudget, hA, Bool.not_true, Bool.false_eq_true, if_false, hcw]
    intro w hw hid
    simp only [List.mem_map] at hw
    obtain ⟨w₀, _, rfl⟩ := hw
    by_cases hc : w₀.id == cw.id
    · simp [hc]
    · rw [if_neg (by simp [hc])] at hid ⊢
      exact absurd hid (by simpa using hc)

/-- Witness for the amended C6: with nobody signed in the budget update is a
no-op, and after `c6trace` (admin signs in, enters 0) the budget is 0. -/
theorem setBudget_spec_witness :
    setBudget "0" initState = initState
    ∧ ((applyOps c6trace initState).workspaces.map Workspace.budget) = [0] :=
  ⟨(setBudget_spec initState "0" DEFAULT_WORKSPACE (by decide)).1 (by decide),
   (setBudget_spec initState "0" DEFAULT_WORKSPACE (by decide)).2.2⟩

/-- C8: with a case-insensitively fresh email, matching confirmation, a
fresh id and at least one workspace, sign-up succeeds: it creates a
Member-role user, sets them active at registration time, adds them to the
first (default) workspace's roster, and a subsequent sign-in with the same
profile and secret succeeds and sets them active. -/
theorem signUp_then_signIn (s : AppState) (name email pw fid : String)
    (hdup : ∀ u ∈ s.users, lowercase u.email ≠ lowercase email)
    (hfresh : ∀ u ∈ s.users, u.id ≠ fid)
    (hws : s.workspaces ≠ []) :
    (handleSignUp name email pw pw fid s).1 = .ok
    ∧ (handleSignUp name email pw pw fid s).2.activeUserId = some fid
    ∧ (∃ u ∈ (handleSignUp name email pw pw fid s).2.users,
        u.id = fid ∧ u.role = .member)
    ∧ (∃ w rest, (handleSignUp name email pw pw fid s).2.workspaces = w :: rest
        ∧ ∃ u ∈ w.users, u.id = fid ∧ u.role = .member)
    ∧ (handleSignIn fid pw (handleSignUp name email pw pw fid s).2).1 = .ok
    ∧ (handleSignIn fid pw (handleSignUp name email pw pw fid s).2).2.activeUserId
        = some fid := by
  obtain ⟨w, rest, hw⟩ := List.exists_cons_of_ne_nil hws
  set newU : User :=
    { id := fid, name := name, email := email, password := some pw,
      avatar := "https://picsum.photos/seed/" ++ email ++ "/120",
      role := .member, themeColor := some DEFAULT_THEME } with hnewU
  have hany : (s.users.any (fun u => lowercase u.email == lowercase email)) = false := by
    rw [List.any_eq_false]
    intro u hu
    simpa using hdup u hu
  have hnone : s.users.find? (fun u => u.id == fid) = none := by
    rw [List.find?_eq_none]
    intro u hu
    simpa using hfresh u hu
  have hs : handleSignUp name email pw pw fid s =
      (.ok,
        { s with
          users := s.users ++ [newU],
          activeUserId := some fid,
          workspaces := ({ w with users := w.users ++ [newU] } :: rest) }) := by
    simp [handleSignUp, hany, hw]
  have hfind : (s.users ++ [newU]).find? (fun u => u.id == fid) = some newU := by
    rw [List.find?_append, hnone]
    simp
  rw [hs]
  refine ⟨rfl, rfl, ⟨newU, by simp, rfl, rfl⟩,
    ⟨_, rest, rfl, newU, by simp, rfl, rfl⟩, ?_, ?_⟩ <;>
    simp [handleSignIn, hfind]

/-- Witness for C8: a fresh registration on the bootstrap state followed by
signing in with the new profile and the same secret. -/
theorem signUp_then_signIn_witness :
    (handleSignUp "Brook" "brook@example.com" "pw" "pw" "u2" initState).1 = Outcome.ok
    ∧ (handleSignUp "Brook" "brook@example.com" "pw" "pw" "u2" initState).2.activeUserId
        = some "u2"
    ∧ (∃ u ∈ (handleSignUp "Brook" "brook@example.com" "pw" "pw" "u2" initState).2.users,
        u.id = "u2" ∧ u.role = .member)
    ∧ (∃ w rest,
        (handleSignUp "Brook" "brook@example.com" "pw" "pw" "u2" initState).2.workspaces
          = w :: rest
        ∧ ∃ u ∈ w.users, u.id = "u2" ∧ u.role = .member)
    ∧ (handleSignIn "u2" "pw"
        (handleSignUp "Brook" "brook@example.com" "pw" "pw" "u2" initState).2).1
        = Outcome.ok
    ∧ (handleSignIn "u2" "pw"
        (handleSignUp "Brook" "brook@example.com" "pw" "pw" "u2" initState).2).2.activeUserId
        = some "u2" :=
  signUp_then_signIn initState "Brook" "brook@example.com" "pw" "u2"
    (by decide) (by decide) (by decide)

/-- C9: registration is rejected with `DuplicateEmail`, leaving the whole
state — in particular the user directory — unchanged, whenever some existing
user's email matches the requested email case-insensitively. -/
theorem signUp_duplicate_email (s : AppState) (name email pw cpw fid : String)
    (u : User) (hu : u ∈ s.users) (he : lowercase u.email = lowercase email) :
    handleSignUp name email pw cpw fid s = (.duplicateEmail, s) := by
  have hany : (s.users.any (fun x => lowercase x.email == lowercase email)) = true := by
    rw [List.any_eq_true]
    exact ⟨u, hu, by simpa using he⟩
  simp [handleSignUp, hany]

/-- Witness for C9: registering `ADMIN@SmartSpend.com`, which differs from
the seeded `admin@smartspend.com` only in letter case, is rejected with the
state unchanged. -/
theorem signUp_duplicate_email_witness :
    handleSignUp "X" "ADMIN@SmartSpend.com" "pw" "pw" "u9" initState =
      (Outcome.duplicateEmail, initState) :=
  signUp_duplicate_email initState "X" "ADMIN@SmartSpend.com" "pw" "pw" "u9"
    uSeed (by decide) (by decide)

/-- C10: the authorization predicate ignores its expense argument — for any
two expenses it returns the same verdict, which depends only on the active
user's membership in the current workspace — and consequently a member of
the current workspace can delete, by id, a confirmed expense recorded under
a different workspace. -/
theorem canModifyTransaction_ignores_expense (s : AppState) (e₁ e₂ e : Expense)
    (hmem : canModifyTransaction s e = true)
    (hw : e.workspaceId ≠ s.currentWorkspaceId) :
    canModifyTransaction s e₁ = canModifyTransaction s e₂
    ∧ (deleteExpense e true s).1 = .ok
    ∧ (deleteExpense e true s).2.expenses =
        s.expenses.filter (fun x => x.id != e.id) := by
  refine ⟨rfl, ?_, ?_⟩ <;> simp [deleteExpense, hmem]

/-- Witness for C10: the member `u1` of current workspace `w1` deletes an
expense recorded under workspace `w2`; the ledger drops it. -/
theorem canModifyTransaction_ignores_expense_witness :
    canModifyTransaction c10state (mkExp "x1" "u1" 1)
      = canModifyTransaction c10state (mkExp "x2" "u1" 2)
    ∧ (deleteExpense c10exp true c10state).1 = Outcome.ok
    ∧ (deleteExpense c10exp true c10state).2.expenses =
        c10state.expenses.filter (fun x => x.id != c10exp.id) :=
  canModifyTransaction_ignores_expense c10state (mkExp "x1" "u1" 1)
    (mkExp "x2" "u1" 2) c10exp (by decide) (by decide)
